import Mathlib

/-!
Verification of the core logic of a terminal package-registry browser:
the security/quality heuristic analyzer (api.rs) and the interactive
navigation state machine (app.rs).  Network calls, wall-clock time and
the terminal renderer are external collaborators; they are modelled as
an explicit environment passed to every operation.
-/

set_option maxHeartbeats 1000000

/-- Package record as fetched from the registry (struct Crate in api.rs). -/
structure Crate where
  name : String
  description : Option String
  downloads : Nat
  created_at : String
  updated_at : String
  documentation : Option String
  repository : Option String
  max_version : String
  license : Option String
  keywords : Option (List String)
  categories : Option (List String)
deriving DecidableEq, Repr

/-- Repository record as fetched from the code-hosting API (struct Repository in api.rs). -/
structure Repository where
  name : String
  full_name : String
  html_url : String
  description : Option String
  stargazers_count : Nat
  forks_count : Nat
  language : Option String
deriving DecidableEq, Repr

/-! ## Levenshtein distance (api.rs, levenshtein_distance)

The source fills an (n1+1) x (n2+1) dynamic-programming table over the
character vectors of the two strings.  The table is embedded as the
function `levMatrix`: `levMatrix c1 c2 i j` is the value of the cell
(i, j), characterized by exactly the source's initialisation
(row 0 and column 0) and its inner-loop recurrence. -/

/-- Substitution cost used in the DP inner loop: 0 if the chars agree, else 1. -/
def levCost (a b : Char) : Nat := if a = b then 0 else 1

/-- One row step of the DP table: given row i as a function `prev`, the
character at index i of the first string and the second string's
characters, computes row i+1. -/
def levMatrixRow (prev : Nat → Nat) (ci : Char) (s2c : List Char) : Nat → Nat
  | 0 => prev 0 + 1
  | j + 1 =>
      min (prev (j + 1) + 1)
        (min (levMatrixRow prev ci s2c j + 1) (prev j + levCost ci (s2c.getD j ' ')))

/-- The DP table of levenshtein_distance: cell (i, j). -/
def levMatrix (s1c s2c : List Char) : Nat → Nat → Nat
  | 0, j => j
  | i + 1, j => levMatrixRow (levMatrix s1c s2c i) (s1c.getD i ' ') s2c j

/-- levenshtein_distance from api.rs: the bottom-right cell of the DP table
over the Unicode scalar sequences of the two strings. -/
def levenshtein_distance (s1 s2 : String) : Nat :=
  levMatrix s1.data s2.data s1.data.length s2.data.length

theorem levMatrix_zero_row (s1c s2c : List Char) (j : Nat) :
    levMatrix s1c s2c 0 j = j := rfl

theorem levMatrix_zero_col (s1c s2c : List Char) : ∀ i, levMatrix s1c s2c i 0 = i := by
  intro i
  induction i with
  | zero => rfl
  | succ i ih => simp [levMatrix, levMatrixRow, ih]

/-- The source's inner-loop recurrence:
matrix[i+1][j+1] = min(matrix[i][j+1] + 1, matrix[i+1][j] + 1, matrix[i][j] + cost). -/
theorem levMatrix_succ_succ (s1c s2c : List Char) (i j : Nat) :
    levMatrix s1c s2c (i + 1) (j + 1) =
      min (levMatrix s1c s2c i (j + 1) + 1)
        (min (levMatrix s1c s2c (i + 1) j + 1)
          (levMatrix s1c s2c i j + levCost (s1c.getD i ' ') (s2c.getD j ' '))) := rfl

/-- Reference recursive Levenshtein distance (classic cost-1
insert/delete/substitute recurrence on character lists). -/
def levRec : List Char → List Char → Nat
  | [], ys => ys.length
  | _ :: xs, [] => xs.length + 1
  | x :: xs, y :: ys =>
      min (levRec xs (y :: ys) + 1)
        (min (levRec (x :: xs) ys + 1) (levRec xs ys + levCost x y))
termination_by a b => a.length + b.length
decreasing_by
  all_goals simp [List.length_cons]
  all_goals omega

theorem levRec_nil_left (ys : List Char) : levRec [] ys = ys.length := by
  cases ys <;> simp [levRec]

theorem levRec_nil_right (xs : List Char) : levRec xs [] = xs.length := by
  cases xs <;> simp [levRec]

theorem levRec_self (xs : List Char) : levRec xs xs = 0 := by
  induction xs with
  | nil => simp [levRec]
  | cons x xs ih =>
    have h0 : levCost x x = 0 := by simp [levCost]
    simp only [levRec, ih, h0]
    omega

theorem levRec_del_le (x : Char) (xs ys : List Char) :
    levRec (x :: xs) ys ≤ levRec xs ys + 1 := by
  cases ys with
  | nil => simp [levRec_nil_right, levRec_nil_left]
  | cons y ys => simp only [levRec]; omega

theorem levRec_ins_le (xs : List Char) (y : Char) (ys : List Char) :
    levRec xs (y :: ys) ≤ levRec xs ys + 1 := by
  cases xs with
  | nil => simp [levRec_nil_left]
  | cons x xs => simp only [levRec]; omega

theorem levRec_cons_cons_le (x y : Char) (xs ys : List Char) :
    levRec (x :: xs) (y :: ys) ≤ levRec xs ys + levCost x y := by
  simp only [levRec]; omega

theorem levCost_comm (a b : Char) : levCost a b = levCost b a := by
  unfold levCost
  by_cases h : a = b
  · subst h; simp
  · rw [if_neg h, if_neg (Ne.symm h)]

theorem levCost_le_one (a b : Char) : levCost a b ≤ 1 := by
  unfold levCost; split <;> omega

theorem levCost_triangle (a b c : Char) : levCost a c ≤ levCost a b + levCost b c := by
  have h1 : levCost a c ≤ 1 := levCost_le_one a c
  by_cases hab : a = b
  · subst hab
    have h2 : levCost a a = 0 := by simp [levCost]
    omega
  · have h2 : levCost a b = 1 := by simp [levCost, hab]
    omega

theorem levRec_comm (xs : List Char) : ∀ ys, levRec xs ys = levRec ys xs := by
  induction xs with
  | nil => intro ys; rw [levRec_nil_left, levRec_nil_right]
  | cons x xs ihx =>
    intro ys
    induction ys with
    | nil => rw [levRec_nil_left, levRec_nil_right]
    | cons y ys ihy =>
      have h1 := ihx (y :: ys)
      have h2 := ihx ys
      have hc := levCost_comm x y
      simp only [levRec]
      omega

theorem levRec_length_le (n : Nat) : ∀ xs ys : List Char,
    xs.length + ys.length ≤ n → xs.length ≤ levRec xs ys + ys.length := by
  induction n with
  | zero =>
    intro xs ys h
    have : xs.length = 0 := by omega
    omega
  | succ n ih =>
    intro xs ys h
    cases xs with
    | nil => simp
    | cons x xs =>
      cases ys with
      | nil => rw [levRec_nil_right]; omega
      | cons y ys =>
        simp only [List.length_cons] at h
        have h1 := ih xs (y :: ys) (by simp only [List.length_cons]; omega)
        have h2 := ih (x :: xs) ys (by simp only [List.length_cons]; omega)
        have h3 := ih xs ys (by omega)
        simp only [List.length_cons] at h1 h2 h3 ⊢
        simp only [levRec]
        omega

theorem levRec_le_sum (xs ys : List Char) : levRec xs ys ≤ xs.length + ys.length := by
  induction xs with
  | nil => simp [levRec_nil_left]
  | cons x xs ih =>
    have := levRec_del_le x xs ys
    simp only [List.length_cons]
    omega

theorem levRec_ins_left_le (y : Char) (ys zs : List Char) :
    levRec ys zs ≤ levRec (y :: ys) zs + 1 := by
  induction zs with
  | nil =>
    rw [levRec_nil_right, levRec_nil_right]
    simp only [List.length_cons]
    omega
  | cons z zs ih =>
    have hins := levRec_ins_le ys z zs
    have hc : 0 ≤ levCost y z := Nat.zero_le _
    simp only [levRec]
    omega

theorem levRec_triangle_fuel (n : Nat) : ∀ a b c : List Char,
    a.length + b.length + c.length ≤ n →
    levRec a c ≤ levRec a b + levRec b c := by
  induction n with
  | zero =>
    intro a b c h
    have ha : a = [] := List.length_eq_zero.mp (by omega)
    have hc : c = [] := List.length_eq_zero.mp (by omega)
    subst ha; subst hc
    simp [levRec_nil_left, levRec_nil_right]
  | succ n ih =>
    intro a b c h
    cases a with
    | nil =>
      rw [levRec_nil_left, levRec_nil_left]
      have h4 := levRec_length_le (c.length + b.length) c b (le_refl _)
      rw [levRec_comm c b] at h4
      omega
    | cons x xs =>
      cases c with
      | nil =>
        rw [levRec_nil_right, levRec_nil_right]
        have h4 := levRec_length_le ((x :: xs).length + b.length) (x :: xs) b (le_refl _)
        omega
      | cons z zs =>
        cases b with
        | nil =>
          rw [levRec_nil_left, levRec_nil_right]
          have h4 := levRec_le_sum (x :: xs) (z :: zs)
          simp only [List.length_cons] at h4 ⊢
          omega
        | cons y ys =>
          simp only [List.length_cons] at h
          have hAB : levRec (x :: xs) (y :: ys) =
              min (levRec xs (y :: ys) + 1)
                (min (levRec (x :: xs) ys + 1) (levRec xs ys + levCost x y)) := by
            simp only [levRec]
          rcases min_cases (levRec xs (y :: ys) + 1)
              (min (levRec (x :: xs) ys + 1) (levRec xs ys + levCost x y)) with
            ⟨h1, _⟩ | ⟨h1, _⟩
          · -- the a-to-b edit deletes x
            have ih1 := ih xs (y :: ys) (z :: zs) (by simp only [List.length_cons]; omega)
            have hdel := levRec_del_le x xs (z :: zs)
            omega
          · rcases min_cases (levRec (x :: xs) ys + 1) (levRec xs ys + levCost x y) with
              ⟨h2, _⟩ | ⟨h2, _⟩
            · -- the a-to-b edit inserts y
              have ih2 := ih (x :: xs) ys (z :: zs) (by simp only [List.length_cons]; omega)
              have hinsl := levRec_ins_left_le y ys (z :: zs)
              omega
            · -- the a-to-b edit substitutes x by y; split the b-to-c edit
              have hBC : levRec (y :: ys) (z :: zs) =
                  min (levRec ys (z :: zs) + 1)
                    (min (levRec (y :: ys) zs + 1) (levRec ys zs + levCost y z)) := by
                simp only [levRec]
              rcases min_cases (levRec ys (z :: zs) + 1)
                  (min (levRec (y :: ys) zs + 1) (levRec ys zs + levCost y z)) with
                ⟨h3, _⟩ | ⟨h3, _⟩
              · have hdel := levRec_del_le x xs (z :: zs)
                have ih3 := ih xs ys (z :: zs) (by simp only [List.length_cons]; omega)
                have hc0 : 0 ≤ levCost x y := Nat.zero_le _
                omega
              · rcases min_cases (levRec (y :: ys) zs + 1) (levRec ys zs + levCost y z) with
                  ⟨h4, _⟩ | ⟨h4, _⟩
                · have hins := levRec_ins_le (x :: xs) z zs
                  have ih4 := ih (x :: xs) (y :: ys) zs (by simp only [List.length_cons]; omega)
                  omega
                · have hsub := levRec_cons_cons_le x z xs zs
                  have ih5 := ih xs ys zs (by omega)
                  have hct := levCost_triangle x y z
                  omega

theorem levRec_triangle (a b c : List Char) :
    levRec a c ≤ levRec a b + levRec b c :=
  levRec_triangle_fuel (a.length + b.length + c.length) a b c (le_refl _)

theorem levMatrix_eq_levRec (s1c s2c : List Char) : ∀ i, i ≤ s1c.length → ∀ j, j ≤ s2c.length →
    levMatrix s1c s2c i j = levRec ((s1c.take i).reverse) ((s2c.take j).reverse) := by
  intro i
  induction i with
  | zero =>
    intro _ j hj
    rw [levMatrix_zero_row, List.take_zero, List.reverse_nil, levRec_nil_left]
    simp [List.length_take]
    omega
  | succ i ihi =>
    intro hi j hj
    have hi' : i < s1c.length := by omega
    have e1 : (s1c.take (i + 1)).reverse = s1c.get ⟨i, hi'⟩ :: (s1c.take i).reverse := by
      rw [List.take_succ]
      simp [List.getElem?_eq_getElem hi']
    induction j with
    | zero =>
      rw [levMatrix_zero_col, List.take_zero, List.reverse_nil, levRec_nil_right, e1]
      simp [List.length_take]
      omega
    | succ j ihj =>
      have hj' : j < s2c.length := by omega
      have e2 : (s2c.take (j + 1)).reverse = s2c.get ⟨j, hj'⟩ :: (s2c.take j).reverse := by
        rw [List.take_succ]
        simp [List.getElem?_eq_getElem hj']
      have g1 : s1c.getD i ' ' = s1c.get ⟨i, hi'⟩ := by
        simp [List.getD_eq_getElem?_getD, List.getElem?_eq_getElem hi']
      have g2 : s2c.getD j ' ' = s2c.get ⟨j, hj'⟩ := by
        simp [List.getD_eq_getElem?_getD, List.getElem?_eq_getElem hj']
      rw [levMatrix_succ_succ, e1, e2]
      simp only [levRec]
      rw [← e1, ← e2]
      rw [ihi (by omega) (j + 1) hj, ihi (by omega) j (by omega),
          ihj (by omega), g1, g2, e1, e2]

theorem levenshtein_eq_levRec (s1 s2 : String) :
    levenshtein_distance s1 s2 = levRec s1.data.reverse s2.data.reverse := by
  unfold levenshtein_distance
  rw [levMatrix_eq_levRec s1.data s2.data s1.data.length (le_refl _) s2.data.length (le_refl _)]
  rw [List.take_length, List.take_length]

/-- Claim C7: levenshtein_distance computes the cost-1 insert/delete/substitute
Levenshtein distance over Unicode scalar values: it is zero on equal strings,
symmetric, satisfies the triangle inequality, and takes the expected values on
the spec's concrete examples. -/
theorem levenshtein_distance_metric :
    (∀ a : String, levenshtein_distance a a = 0)
    ∧ (∀ a b : String, levenshtein_distance a b = levenshtein_distance b a)
    ∧ (∀ a b c : String,
        levenshtein_distance a c ≤ levenshtein_distance a b + levenshtein_distance b c)
    ∧ levenshtein_distance "serde" "serde" = 0
    ∧ levenshtein_distance "serde" "serdee" = 1
    ∧ levenshtein_distance "" "abc" = 3 := by
  refine ⟨?_, ?_, ?_, ?_, ?_, ?_⟩
  · intro a
    rw [levenshtein_eq_levRec, levRec_self]
  · intro a b
    rw [levenshtein_eq_levRec, levenshtein_eq_levRec, levRec_comm]
  · intro a b c
    rw [levenshtein_eq_levRec, levenshtein_eq_levRec, levenshtein_eq_levRec]
    exact levRec_triangle _ _ _
  · decide
  · decide
  · decide

/-! ## Security analyzer (api.rs, security_check)

security_check is pure except for one wall-clock-dependent check: the age of
the package, computed from its created_at timestamp.  That external part is
modelled by an oracle `ageDays : String → Option Int` giving the age in days
of a parseable RFC-3339 timestamp, and none for an unparsable one. -/

/-- Fixed table of common license tokens from security_check. -/
def common_licenses : List String :=
  ["mit", "apache", "gpl", "lgpl", "bsd", "mpl", "unlicense", "isc", "zlib",
   "wtfpl", "cc0", "boost", "artistic", "mozilla", "zlib/libpng"]

/-- Fixed table of popular crate names targeted by the typosquatting check. -/
def popular_crates : List String :=
  ["serde", "tokio", "reqwest", "actix", "rocket", "diesel", "clap", "futures",
   "rand", "log", "chrono", "lazy_static", "wasm-bindgen", "regex", "hyper",
   "rayon", "anyhow", "thiserror"]

/-- Occurrence of a contiguous pattern anywhere in a character list. -/
def charsContain (pat : List Char) : List Char → Bool
  | [] => pat.isEmpty
  | c :: rest => pat.isPrefixOf (c :: rest) || charsContain pat rest

/-- Rust str::contains: substring containment. -/
def strContains (s pat : String) : Bool := charsContain pat.data s.data

/-- Rust str::starts_with on the character sequence. -/
def strStarts (s pat : String) : Bool := pat.data.isPrefixOf s.data

/-- Rust str::ends_with on the character sequence. -/
def strEnds (s pat : String) : Bool := pat.data.reverse.isPrefixOf s.data.reverse

/-- Rust s.trim().is_empty(): every character of s is whitespace. -/
def trimIsEmpty (s : String) : Bool := s.data.all (fun c => c.isWhitespace)

/-- Rust str::to_lowercase (ASCII-relevant part). -/
def strLower (s : String) : String := ⟨s.data.map Char.toLower⟩

/-- The uncommon-license warning text with the license interpolated. -/
def uncommonMsg (license : String) : String :=
  "Uncommon license: '" ++ license ++ "' - verify before use"

/-- The copyleft warning text. -/
def gplMsg : String :=
  "GPL license may require derivative works to be open-sourced"

/-- The prefix/suffix name-similarity warning text. -/
def suspiciousMsg (target : String) : String :=
  "Name suspiciously similar to '" ++ target ++ "'"

/-- The edit-distance name-similarity warning text. -/
def similarMsg (target : String) : String :=
  "Name similar to popular crate '" ++ target ++ "'"

/-- Check 1 of security_check: license health. -/
def licenseWarnings (cd : Crate) : List String :=
  match cd.license with
  | some license =>
      if trimIsEmpty license then ["Empty license specified"]
      else
        let license_lower := strLower license
        let is_common := common_licenses.any (fun c => strContains license_lower c)
        (if !is_common then [uncommonMsg license] else []) ++
          (if strContains license_lower "gpl" && !strContains license_lower "lgpl"
           then [gplMsg] else [])
  | none => ["No license specified"]

/-- Check 2 of security_check: new package with unusually high downloads.
An unparsable created_at silently skips the check. -/
def growthWarnings (ageDays : String → Option Int) (cd : Crate) : List String :=
  match ageDays cd.created_at with
  | some d =>
      if d < 30 ∧ cd.downloads > 10000
      then ["New crate with unusually high download count"] else []
  | none => []

/-- Check 3 of security_check: the typosquatting loop over popular_crates.
The Rust loop breaks right after pushing a warning, so the scan returns the
first warning produced, if any.  Lengths compare byte lengths, as str::len
does. -/
def typoScan (name : String) : List String → List String
  | [] => []
  | target :: rest =>
      if name ≠ target then
        if (strStarts name target || strEnds name target)
            && (decide (name.utf8ByteSize > target.utf8ByteSize)
                && decide (name.utf8ByteSize ≤ target.utf8ByteSize + 3)) then
          [suspiciousMsg target]
        else if decide (((name.utf8ByteSize : Int) - (target.utf8ByteSize : Int)).natAbs ≤ 2)
            && decide (levenshtein_distance name target ≤ 2) then
          [similarMsg target]
        else typoScan name rest
      else typoScan name rest

def typoWarnings (name : String) : List String := typoScan name popular_crates

/-- Check 4 of security_check: missing or blank repository link. -/
def repoWarnings (cd : Crate) : List String :=
  if cd.repository = none ∨ (trimIsEmpty (cd.repository.getD "") = true)
  then ["No repository link"] else []

/-- Check 5 of security_check: missing or blank documentation link. -/
def docWarnings (cd : Crate) : List String :=
  if cd.documentation = none ∨ (trimIsEmpty (cd.documentation.getD "") = true)
  then ["No documentation link"] else []

/-- Check 6 of security_check: very early version. -/
def versionWarnings (cd : Crate) : List String :=
  if strStarts cd.max_version "0.0." || (cd.max_version == "0.0.1")
  then ["Very early version - may not be stable"] else []

/-- security_check from api.rs: the six checks appended in order. -/
def security_check (ageDays : String → Option Int) (cd : Crate) : List String :=
  licenseWarnings cd ++ growthWarnings ageDays cd ++ typoWarnings cd.name ++
    repoWarnings cd ++ docWarnings cd ++ versionWarnings cd

/-! ## Classification of analyzer warnings -/

/-- All name-similarity warnings the typosquatting check can ever emit. -/
def simMessages : List String :=
  popular_crates.flatMap (fun t => [suspiciousMsg t, similarMsg t])

/-- A warning is a name-similarity warning iff it is one of the typosquatting
check's messages. -/
def isSimWarning (w : String) : Bool := decide (w ∈ simMessages)

/-- A warning is license-related iff it is one of the license check's
messages. -/
def isLicenseRelated (w : String) : Bool :=
  w == "No license specified" || w == "Empty license specified" || w == gplMsg
    || strStarts w "Uncommon license:"

theorem typoScan_mem (name : String) : ∀ (l : List String) (w : String),
    w ∈ typoScan name l → ∃ t ∈ l, w = suspiciousMsg t ∨ w = similarMsg t := by
  intro l
  induction l with
  | nil => intro w hw; simp [typoScan] at hw
  | cons target rest ih =>
    intro w hw
    unfold typoScan at hw
    split at hw
    · split at hw
      · simp at hw
        exact ⟨target, by simp, Or.inl hw⟩
      · split at hw
        · simp at hw
          exact ⟨target, by simp, Or.inr hw⟩
        · obtain ⟨t, ht, h⟩ := ih w hw
          exact ⟨t, by simp [ht], h⟩
    · obtain ⟨t, ht, h⟩ := ih w hw
      exact ⟨t, by simp [ht], h⟩

theorem typoScan_length (name : String) : ∀ l : List String,
    (typoScan name l).length ≤ 1 := by
  intro l
  induction l with
  | nil => simp [typoScan]
  | cons target rest ih =>
    unfold typoScan
    split
    · split
      · simp
      · split
        · simp
        · exact ih
    · exact ih

theorem typoWarnings_mem (name w : String) (hw : w ∈ typoWarnings name) :
    w ∈ simMessages := by
  obtain ⟨t, ht, h⟩ := typoScan_mem name popular_crates w hw
  unfold simMessages
  rcases h with h | h <;> subst h <;> exact List.mem_flatMap.mpr ⟨t, ht, by simp⟩

theorem uncommonMsg_head (s : String) : (uncommonMsg s).data.head? = some 'U' := by
  unfold uncommonMsg
  rw [String.data_append, String.data_append]
  rw [show "Uncommon license: '".data = 'U' :: "ncommon license: '".data from rfl]
  simp

theorem uncommonMsg_not_sim (s : String) : isSimWarning (uncommonMsg s) = false := by
  unfold isSimWarning
  rw [decide_eq_false_iff_not]
  intro hmem
  have hN : ∀ w ∈ simMessages, w.data.head? = some 'N' := by decide
  have h2 := hN _ hmem
  rw [uncommonMsg_head s] at h2
  exact absurd h2 (by decide)

theorem uncommonMsg_not_license (s : String) : isLicenseRelated (uncommonMsg s) = true := by
  unfold isLicenseRelated strStarts
  have h : "Uncommon license:".data.isPrefixOf (uncommonMsg s).data = true := by
    unfold uncommonMsg
    rw [String.data_append, String.data_append]
    rw [show ("Uncommon license: '".data : List Char) =
      "Uncommon license:".data ++ " '".data from rfl]
    rw [List.append_assoc, List.append_assoc]
    exact List.isPrefixOf_iff_prefix.mpr (List.prefix_append _ _)
  simp [h]

theorem growthWarnings_mem (f : String → Option Int) (cd : Crate) (w : String)
    (hw : w ∈ growthWarnings f cd) :
    w = "New crate with unusually high download count" := by
  unfold growthWarnings at hw
  split at hw
  · split at hw
    · simpa using hw
    · simp at hw
  · simp at hw

theorem repoWarnings_mem (cd : Crate) (w : String) (hw : w ∈ repoWarnings cd) :
    w = "No repository link" := by
  unfold repoWarnings at hw
  split at hw
  · simpa using hw
  · simp at hw

theorem docWarnings_mem (cd : Crate) (w : String) (hw : w ∈ docWarnings cd) :
    w = "No documentation link" := by
  unfold docWarnings at hw
  split at hw
  · simpa using hw
  · simp at hw

theorem versionWarnings_mem (cd : Crate) (w : String) (hw : w ∈ versionWarnings cd) :
    w = "Very early version - may not be stable" := by
  unfold versionWarnings at hw
  split at hw
  · simpa using hw
  · simp at hw

theorem licenseWarnings_not_sim (cd : Crate) :
    ∀ w ∈ licenseWarnings cd, isSimWarning w = false := by
  intro w hw
  unfold licenseWarnings at hw
  split at hw
  · split at hw
    · simp at hw; subst hw; decide
    · simp only [List.mem_append] at hw
      rcases hw with hw | hw
      · split at hw
        · simp at hw; subst hw
          exact uncommonMsg_not_sim _
        · simp at hw
      · split at hw
        · simp at hw; subst hw; decide
        · simp at hw
  · simp at hw; subst hw; decide

/-- Fixture: a minimal innocuous crate record. -/
def crateX : Crate :=
  { name := "x", description := none, downloads := 0, created_at := "",
    updated_at := "", documentation := some "d", repository := some "r",
    max_version := "1.0.0", license := some "MIT", keywords := none,
    categories := none }

/-- Fixture: no age information available (unparsable timestamps). -/
def noAge : String → Option Int := fun _ => none

theorem simMessages_not_license : ∀ w ∈ simMessages, isLicenseRelated w = false := by
  decide

/-- Claim C3 (amended): a package whose license is None gets exactly one
license-related warning, the string "No license specified"; a package whose
license is present but empty or all-whitespace gets exactly one
license-related warning, the string "Empty license specified". -/
theorem license_warning_exact (f : String → Option Int) (cd : Crate) :
    (cd.license = none →
      (security_check f cd).filter isLicenseRelated = ["No license specified"])
    ∧ (∀ s, cd.license = some s → trimIsEmpty s = true →
      (security_check f cd).filter isLicenseRelated = ["Empty license specified"]) := by
  have hg : (growthWarnings f cd).filter isLicenseRelated = [] :=
    List.filter_eq_nil_iff.mpr (fun w hw => by rw [growthWarnings_mem f cd w hw]; decide)
  have ht : (typoWarnings cd.name).filter isLicenseRelated = [] :=
    List.filter_eq_nil_iff.mpr (fun w hw => by
      have h := typoWarnings_mem _ w hw
      simp [simMessages_not_license w h])
  have hr : (repoWarnings cd).filter isLicenseRelated = [] :=
    List.filter_eq_nil_iff.mpr (fun w hw => by rw [repoWarnings_mem cd w hw]; decide)
  have hd : (docWarnings cd).filter isLicenseRelated = [] :=
    List.filter_eq_nil_iff.mpr (fun w hw => by rw [docWarnings_mem cd w hw]; decide)
  have hv : (versionWarnings cd).filter isLicenseRelated = [] :=
    List.filter_eq_nil_iff.mpr (fun w hw => by rw [versionWarnings_mem cd w hw]; decide)
  constructor
  · intro hL
    have h1 : licenseWarnings cd = ["No license specified"] := by
      simp [licenseWarnings, hL]
    unfold security_check
    simp only [List.filter_append, hg, ht, hr, hd, hv, h1]
    decide
  · intro s hL hTrim
    have h1 : licenseWarnings cd = ["Empty license specified"] := by
      simp [licenseWarnings, hL, hTrim]
    unfold security_check
    simp only [List.filter_append, hg, ht, hr, hd, hv, h1]
    decide

theorem license_warning_exact_witness :
    (security_check noAge { crateX with license := none }).filter isLicenseRelated
      = ["No license specified"] :=
  (license_warning_exact noAge { crateX with license := none }).1 rfl

/-- Claim C3, counterexample: on a package with an empty (hence all-whitespace)
license string, the license warning produced is "Empty license specified",
not "No license specified" as the claim states. -/
theorem license_whitespace_counterexample :
    "Empty license specified" ∈ security_check noAge { crateX with license := some "" }
    ∧ "No license specified" ∉ security_check noAge { crateX with license := some "" } := by
  decide

/-- Claim C6: security_check emits at most one name-similarity warning per
package; a package named "toko" receives the similarity warning for "tokio",
and a package named exactly "tokio" receives no similarity warning. -/
theorem similarity_warning_unique (f : String → Option Int) (cd : Crate) :
    ((security_check f cd).countP isSimWarning ≤ 1)
    ∧ (cd.name = "toko" →
        similarMsg "tokio" ∈ security_check f cd
        ∧ (security_check f cd).countP isSimWarning = 1)
    ∧ (cd.name = "tokio" → (security_check f cd).countP isSimWarning = 0) := by
  have hl : (licenseWarnings cd).countP isSimWarning = 0 :=
    List.countP_eq_zero.mpr (fun w hw => by simp [licenseWarnings_not_sim cd w hw])
  have hg : (growthWarnings f cd).countP isSimWarning = 0 :=
    List.countP_eq_zero.mpr (fun w hw => by rw [growthWarnings_mem f cd w hw]; decide)
  have hr : (repoWarnings cd).countP isSimWarning = 0 :=
    List.countP_eq_zero.mpr (fun w hw => by rw [repoWarnings_mem cd w hw]; decide)
  have hd : (docWarnings cd).countP isSimWarning = 0 :=
    List.countP_eq_zero.mpr (fun w hw => by rw [docWarnings_mem cd w hw]; decide)
  have hv : (versionWarnings cd).countP isSimWarning = 0 :=
    List.countP_eq_zero.mpr (fun w hw => by rw [versionWarnings_mem cd w hw]; decide)
  refine ⟨?_, ?_, ?_⟩
  · have htyp : (typoWarnings cd.name).countP isSimWarning ≤ 1 :=
      le_trans (List.countP_le_length _) (typoScan_length cd.name popular_crates)
    unfold security_check
    simp only [List.countP_append, hl, hg, hr, hd, hv]
    omega
  · intro hname
    have htoko : typoWarnings cd.name = [similarMsg "tokio"] := by rw [hname]; decide
    constructor
    · unfold security_check
      rw [htoko]
      simp
    · unfold security_check
      simp only [List.countP_append, hl, hg, hr, hd, hv, htoko]
      decide
  · intro hname
    have htokio : typoWarnings cd.name = [] := by rw [hname]; decide
    unfold security_check
    simp only [List.countP_append, hl, hg, hr, hd, hv, htokio]
    decide

theorem similarity_warning_unique_witness :
    similarMsg "tokio" ∈ security_check noAge { crateX with name := "toko" } :=
  ((similarity_warning_unique noAge { crateX with name := "toko" }).2.1 rfl).1

/-! ## Navigation state machine (app.rs)

The external collaborators (network data source and the wall clock used by
security_check) are bundled into an `ApiEnv`.  Rust's fallible Vec::remove
is modelled in Option: `none` is a panic. -/

/-- Tab enumeration from app.rs, in declaration order. -/
inductive Tab where
  | Search
  | Recent
  | Trending
  | Compare
  | Help
deriving DecidableEq, Repr

/-- LoadingState from app.rs. -/
inductive LoadingState where
  | NotLoading
  | Loading
  | Loaded
  | Error (msg : String)
deriving DecidableEq, Repr

/-- SecurityInfo from app.rs. -/
structure SecurityInfo where
  warnings : List String
  safe : Bool
deriving DecidableEq, Repr

/-- ComparedCrate from app.rs. -/
structure ComparedCrate where
  details : Crate
  security : SecurityInfo
  selected : Bool
deriving DecidableEq, Repr

/-- The App aggregate from app.rs. -/
structure App where
  running : Bool
  current_tab : Tab
  crates : List Crate
  repos : List Repository
  search_query : String
  selected_index : Nat
  loading_state : LoadingState
  trend_period : String
  show_detail : Bool
  input_mode : Bool
  detail_scroll : Nat
  compared_crates : List ComparedCrate
  compare_search_query : String
  compare_input_mode : Bool
deriving DecidableEq, Repr

/-- Key codes relevant to handle_key_event; `Other` stands for every key the
handlers ignore through their catch-all arms. -/
inductive KeyCode where
  | Char (c : Char)
  | Tab
  | BackTab
  | Down
  | Up
  | Enter
  | Esc
  | Backspace
  | PageDown
  | PageUp
  | Other
deriving DecidableEq, Repr

/-- A key event: code plus whether the CONTROL modifier is held. -/
structure KeyEvent where
  code : KeyCode
  ctrl : Bool
deriving DecidableEq, Repr

/-- The external data source and clock: results of api.rs's network calls
and of the package-age computation inside security_check. -/
structure ApiEnv where
  recent_crates : Nat → Except String (List Crate)
  trending_repos : String → Nat → Except String (List Repository)
  search_crates : String → Nat → Except String (List Crate)
  get_crate_details : String → Except String Crate
  ageDays : String → Option Int

/-- Rust String::pop: drop the last character, no-op on empty. -/
def strPop (s : String) : String := ⟨s.data.dropLast⟩

/-- Build a ComparedCrate from full details, as both add operations do. -/
def mkCompared (env : ApiEnv) (details : Crate) : ComparedCrate :=
  let w := security_check env.ageDays details
  { details := details, security := { warnings := w, safe := w.isEmpty },
    selected := false }

/-- load_recent_crates from app.rs. -/
def App.load_recent_crates (env : ApiEnv) (a : App) : App :=
  let a1 := { a with loading_state := LoadingState.Loading }
  match env.recent_crates 20 with
  | Except.ok crates => { a1 with crates := crates, loading_state := LoadingState.Loaded }
  | Except.error e => { a1 with loading_state := LoadingState.Error e }

/-- load_trending_repos from app.rs. -/
def App.load_trending_repos (env : ApiEnv) (a : App) : App :=
  let a1 := { a with loading_state := LoadingState.Loading }
  match env.trending_repos a.trend_period 20 with
  | Except.ok repos => { a1 with repos := repos, loading_state := LoadingState.Loaded }
  | Except.error e => { a1 with loading_state := LoadingState.Error e }

/-- search_crates from app.rs (no-op on an empty query). -/
def App.search_crates (env : ApiEnv) (a : App) : App :=
  if a.search_query.isEmpty = true then a
  else
    let a1 := { a with loading_state := LoadingState.Loading }
    match env.search_crates a.search_query 20 with
    | Except.ok crates => { a1 with crates := crates, loading_state := LoadingState.Loaded }
    | Except.error e => { a1 with loading_state := LoadingState.Error e }

/-- search_crates_silently from app.rs (used by the renderer's lazy default
search). -/
def App.search_crates_silently (env : ApiEnv) (q : String) (a : App) : App :=
  let a1 := { a with loading_state := LoadingState.Loading }
  match env.search_crates q 20 with
  | Except.ok crates => { a1 with crates := crates, loading_state := LoadingState.Loaded }
  | Except.error e => { a1 with loading_state := LoadingState.Error e }

/-- tick from app.rs: only a Loading state re-drives the active tab's fetch. -/
def App.tick (env : ApiEnv) (a : App) : App :=
  match a.loading_state with
  | LoadingState.Loading =>
      match a.current_tab with
      | Tab.Recent => a.load_recent_crates env
      | Tab.Trending => a.load_trending_repos env
      | Tab.Search =>
          if a.search_query.isEmpty = true then a else a.search_crates env
      | _ => a
  | _ => a

/-- add_to_comparison from app.rs. -/
def App.add_to_comparison (env : ApiEnv) (a : App) : App :=
  if a.current_tab = Tab.Recent ∨ a.current_tab = Tab.Search then
    if h : a.crates ≠ [] ∧ a.selected_index < a.crates.length then
      let current_crate := a.crates.get ⟨a.selected_index, h.2⟩
      if a.compared_crates.any (fun c => c.details.name == current_crate.name) then a
      else
        match env.get_crate_details current_crate.name with
        | Except.ok details =>
            { a with compared_crates := a.compared_crates ++ [mkCompared env details] }
        | Except.error _ =>
            { a with compared_crates := a.compared_crates ++ [mkCompared env current_crate] }
    else a
  else a

/-- remove_from_comparison from app.rs.  Vec::remove panics when the index is
out of bounds; a panic is `none`. -/
def App.remove_from_comparison (a : App) : Option App :=
  if a.current_tab = Tab.Compare ∧ a.compared_crates ≠ [] then
    if a.selected_index < a.compared_crates.length then
      let cc := a.compared_crates.eraseIdx a.selected_index
      if a.selected_index ≥ cc.length ∧ cc ≠ [] then
        some { a with compared_crates := cc, selected_index := cc.length - 1 }
      else
        some { a with compared_crates := cc }
    else none
  else some a

/-- add_crate_to_comparison_by_name from app.rs; fetch failures are
swallowed. -/
def App.add_crate_to_comparison_by_name (env : ApiEnv) (name : String) (a : App) : App :=
  match env.get_crate_details name with
  | Except.ok details =>
      if a.compared_crates.any (fun c => c.details.name == details.name) then a
      else { a with compared_crates := a.compared_crates ++ [mkCompared env details] }
  | Except.error _ => a

/-- next_tab from app.rs: cycle forward, reset selection, close detail, and
mark Loading when the target tab's list is empty. -/
def App.next_tab (a : App) : App :=
  let t := match a.current_tab with
    | Tab.Search => Tab.Recent
    | Tab.Recent => Tab.Trending
    | Tab.Trending => Tab.Compare
    | Tab.Compare => Tab.Help
    | Tab.Help => Tab.Search
  let a1 := { a with current_tab := t, selected_index := 0, show_detail := false }
  match t with
  | Tab.Recent =>
      if a1.crates = [] then { a1 with loading_state := LoadingState.Loading } else a1
  | Tab.Trending =>
      if a1.repos = [] then { a1 with loading_state := LoadingState.Loading } else a1
  | _ => a1

/-- prev_tab from app.rs: cycle backward, same bookkeeping as next_tab. -/
def App.prev_tab (a : App) : App :=
  let t := match a.current_tab with
    | Tab.Search => Tab.Help
    | Tab.Recent => Tab.Search
    | Tab.Trending => Tab.Recent
    | Tab.Compare => Tab.Trending
    | Tab.Help => Tab.Compare
  let a1 := { a with current_tab := t, selected_index := 0, show_detail := false }
  match t with
  | Tab.Recent =>
      if a1.crates = [] then { a1 with loading_state := LoadingState.Loading } else a1
  | Tab.Trending =>
      if a1.repos = [] then { a1 with loading_state := LoadingState.Loading } else a1
  | _ => a1

/-- next_item from app.rs: move selection down, wrapping modulo the current
tab's list length; no-op on an empty list. -/
def App.next_item (a : App) : App :=
  let max := match a.current_tab with
    | Tab.Recent | Tab.Search => a.crates.length
    | Tab.Trending => a.repos.length
    | Tab.Compare => a.compared_crates.length
    | Tab.Help => 0
  if max > 0 then { a with selected_index := (a.selected_index + 1) % max } else a

/-- prev_item from app.rs: move selection up, wrapping to the end. -/
def App.prev_item (a : App) : App :=
  let max := match a.current_tab with
    | Tab.Recent | Tab.Search => a.crates.length
    | Tab.Trending => a.repos.length
    | Tab.Compare => a.compared_crates.length
    | Tab.Help => 0
  if max > 0 then
    { a with selected_index :=
        if a.selected_index > 0 then a.selected_index - 1 else max - 1 }
  else a

/-- handle_detail_mode from app.rs.  saturating_add/sub on the usize scroll
offset are Nat addition and (truncated) subtraction. -/
def App.handle_detail_mode (key : KeyEvent) (a : App) : App :=
  match key.code with
  | KeyCode.Esc => { a with show_detail := false }
  | KeyCode.Char c =>
      if c = 'q' then { a with show_detail := false }
      else if c = 'j' then { a with detail_scroll := a.detail_scroll + 1 }
      else if c = 'k' then { a with detail_scroll := a.detail_scroll - 1 }
      else a
  | KeyCode.Down => { a with detail_scroll := a.detail_scroll + 1 }
  | KeyCode.Up => { a with detail_scroll := a.detail_scroll - 1 }
  | KeyCode.PageDown => { a with detail_scroll := a.detail_scroll + 10 }
  | KeyCode.PageUp => { a with detail_scroll := a.detail_scroll - 10 }
  | _ => a

/-- handle_input_mode from app.rs (primary search input). -/
def App.handle_input_mode (env : ApiEnv) (key : KeyEvent) (a : App) : App :=
  match key.code with
  | KeyCode.Enter =>
      let a1 := { a with input_mode := false }
      if a1.search_query.isEmpty = true then a1
      else { App.search_crates env a1 with selected_index := 0 }
  | KeyCode.Esc => { a with input_mode := false }
  | KeyCode.Char c => { a with search_query := a.search_query.push c }
  | KeyCode.Backspace => { a with search_query := strPop a.search_query }
  | _ => a

/-- handle_key_event from app.rs: quit checks first, then detail mode, then
the two input modes, then normal-mode dispatch.  The result is `none` exactly
when the dispatched operation panics (Vec::remove out of bounds). -/
def App.handle_key_event (env : ApiEnv) (key : KeyEvent) (a : App) : Option App :=
  if key.code = KeyCode.Char 'q' ∧ a.input_mode = false ∧ a.compare_input_mode = false then
    some { a with running := false }
  else if key.code = KeyCode.Char 'c' ∧ key.ctrl = true then
    some { a with running := false }
  else if a.show_detail = true then
    some (a.handle_detail_mode key)
  else if a.input_mode = true then
    some (a.handle_input_mode env key)
  else if a.compare_input_mode = true then
    some (match key.code with
      | KeyCode.Enter =>
          let a1 := { a with compare_input_mode := false }
          if a1.compare_search_query.isEmpty = true then a1
          else
            { App.add_crate_to_comparison_by_name env a1.compare_search_query a1 with
                compare_search_query := "" }
      | KeyCode.Esc => { a with compare_input_mode := false }
      | KeyCode.Char c =>
          { a with compare_search_query := a.compare_search_query.push c }
      | KeyCode.Backspace =>
          { a with compare_search_query := strPop a.compare_search_query }
      | _ => a)
  else
    match key.code with
    | KeyCode.Tab => some a.next_tab
    | KeyCode.BackTab => some a.prev_tab
    | KeyCode.Down => some a.next_item
    | KeyCode.Up => some a.prev_item
    | KeyCode.Enter => some { a with show_detail := true, detail_scroll := 0 }
    | KeyCode.Char c =>
        if c = 'j' then some a.next_item
        else if c = 'k' then some a.prev_item
        else if c = '1' then some { a with current_tab := Tab.Search }
        else if c = '2' then
          some (App.load_recent_crates env { a with current_tab := Tab.Recent })
        else if c = '3' then
          some (App.load_trending_repos env { a with current_tab := Tab.Trending })
        else if c = '4' then some { a with current_tab := Tab.Help }
        else if c = '5' then some { a with current_tab := Tab.Compare }
        else if c = '/' then
          some (if a.current_tab = Tab.Search then
                  { a with input_mode := true, search_query := "" }
                else a)
        else if c = 'a' then
          if a.current_tab = Tab.Search ∨ a.current_tab = Tab.Recent then
            some (a.add_to_comparison env)
          else if a.current_tab = Tab.Compare then
            some { a with compare_input_mode := true }
          else some a
        else if c = 'd' then
          if a.current_tab = Tab.Compare then a.remove_from_comparison else some a
        else some a
    | _ => some a

/-- App::new from app.rs: the initial record followed by the synchronous
initial load of recent crates. -/
def App.new (env : ApiEnv) : App :=
  App.load_recent_crates env
    { running := true, current_tab := Tab.Search, crates := [], repos := [],
      search_query := "", selected_index := 0,
      loading_state := LoadingState.NotLoading, trend_period := "weekly",
      show_detail := false, input_mode := false, detail_scroll := 0,
      compared_crates := [], compare_search_query := "",
      compare_input_mode := false }

/-- The events the main loop dispatches (main.rs): a tick re-drives fetches,
a key event goes to handle_key_event, mouse and resize events are ignored. -/
inductive AppEvent where
  | Tick
  | Key (k : KeyEvent)
  | Mouse
  | Resize

/-- One iteration of the main loop's event dispatch. -/
def step (env : ApiEnv) (e : AppEvent) (a : App) : Option App :=
  match e with
  | AppEvent.Tick => some (App.tick env a)
  | AppEvent.Key k => App.handle_key_event env k a
  | AppEvent.Mouse => some a
  | AppEvent.Resize => some a

/-- Run a finite sequence of events from a state; `none` once any step
panics. -/
def runEvents (env : ApiEnv) : List AppEvent → App → Option App
  | [], a => some a
  | e :: es, a =>
      match step env e a with
      | some a1 => runEvents env es a1
      | none => none

/-- Fixture: a second innocuous crate. -/
def crateY : Crate := { crateX with name := "y" }

/-- Fixture environment: recent crates are available, the details endpoint is
down, the other endpoints return empty lists. -/
def env0 : ApiEnv :=
  { recent_crates := fun _ => Except.ok [crateX, crateY],
    trending_repos := fun _ _ => Except.ok [],
    search_crates := fun _ _ => Except.ok [],
    get_crate_details := fun _ => Except.error "offline",
    ageDays := fun _ => none }

/-- Fixture environment: the recent endpoint now returns an empty page and
searching for "r" finds one crate. -/
def env5 : ApiEnv :=
  { env0 with
    recent_crates := fun _ => Except.ok [],
    search_crates := fun q _ => if q = "r" then Except.ok [crateX] else Except.ok [] }

/-- An App in normal navigation mode (all mode flags off); every other field
is arbitrary. -/
def normalApp (r : Bool) (t : Tab) (cs : List Crate) (rs : List Repository)
    (sq : String) (sel : Nat) (ls : LoadingState) (tp : String) (sc : Nat)
    (cc : List ComparedCrate) (cq : String) : App :=
  { running := r, current_tab := t, crates := cs, repos := rs,
    search_query := sq, selected_index := sel, loading_state := ls,
    trend_period := tp, show_detail := false, input_mode := false,
    detail_scroll := sc, compared_crates := cc, compare_search_query := cq,
    compare_input_mode := false }

/-- An App in detail-view mode; every other field is arbitrary. -/
def detailApp (r : Bool) (t : Tab) (cs : List Crate) (rs : List Repository)
    (sq : String) (sel : Nat) (ls : LoadingState) (tp : String) (sc : Nat)
    (cc : List ComparedCrate) (cq : String) : App :=
  { running := r, current_tab := t, crates := cs, repos := rs,
    search_query := sq, selected_index := sel, loading_state := ls,
    trend_period := tp, show_detail := true, input_mode := false,
    detail_scroll := sc, compared_crates := cc, compare_search_query := cq,
    compare_input_mode := false }

/-- An App in primary-search input mode; every other field is arbitrary. -/
def inputApp (r : Bool) (t : Tab) (cs : List Crate) (rs : List Repository)
    (sq : String) (sel : Nat) (ls : LoadingState) (tp : String) (sc : Nat)
    (cc : List ComparedCrate) (cq : String) : App :=
  { running := r, current_tab := t, crates := cs, repos := rs,
    search_query := sq, selected_index := sel, loading_state := ls,
    trend_period := tp, show_detail := false, input_mode := true,
    detail_scroll := sc, compared_crates := cc, compare_search_query := cq,
    compare_input_mode := false }

/-- An App in comparison-add input mode; every other field is arbitrary. -/
def compareInputApp (r : Bool) (t : Tab) (cs : List Crate) (rs : List Repository)
    (sq : String) (sel : Nat) (ls : LoadingState) (tp : String) (sc : Nat)
    (cc : List ComparedCrate) (cq : String) : App :=
  { running := r, current_tab := t, crates := cs, repos := rs,
    search_query := sq, selected_index := sel, loading_state := ls,
    trend_period := tp, show_detail := false, input_mode := false,
    detail_scroll := sc, compared_crates := cc, compare_search_query := cq,
    compare_input_mode := true }

theorem load_recent_selected (env : ApiEnv) (b : App) :
    (App.load_recent_crates env b).selected_index = b.selected_index := by
  unfold App.load_recent_crates
  cases env.recent_crates 20 <;> rfl

theorem load_trending_selected (env : ApiEnv) (b : App) :
    (App.load_trending_repos env b).selected_index = b.selected_index := by
  unfold App.load_trending_repos
  cases env.trending_repos b.trend_period 20 <;> rfl

theorem next_tab_fields (a : App) :
    a.next_tab.selected_index = 0 ∧ a.next_tab.show_detail = false
      ∧ a.next_tab.crates = a.crates ∧ a.next_tab.repos = a.repos := by
  unfold App.next_tab
  cases a.current_tab <;> dsimp only <;> (try split) <;> simp

theorem prev_tab_fields (a : App) :
    a.prev_tab.selected_index = 0 ∧ a.prev_tab.show_detail = false
      ∧ a.prev_tab.crates = a.crates ∧ a.prev_tab.repos = a.repos := by
  unfold App.prev_tab
  cases a.current_tab <;> dsimp only <;> (try split) <;> simp

theorem next_tab_loading (a : App) :
    a.next_tab.loading_state =
      if (a.next_tab.current_tab = Tab.Recent ∧ a.crates = [])
          ∨ (a.next_tab.current_tab = Tab.Trending ∧ a.repos = [])
        then LoadingState.Loading else a.loading_state := by
  unfold App.next_tab
  cases a.current_tab <;> dsimp only <;> (try split) <;> simp_all

theorem prev_tab_loading (a : App) :
    a.prev_tab.loading_state =
      if (a.prev_tab.current_tab = Tab.Recent ∧ a.crates = [])
          ∨ (a.prev_tab.current_tab = Tab.Trending ∧ a.repos = [])
        then LoadingState.Loading else a.loading_state := by
  unfold App.prev_tab
  cases a.current_tab <;> dsimp only <;> (try split) <;> simp_all

/-- Claim C1 (amended): Tab/BackTab cycling resets the selection index to 0
and closes the detail view, but the numeric jump keys 1-5 switch the tab
while leaving the selection index unchanged, so the claimed bounds invariant
is not maintained across numeric jumps. -/
theorem tab_switch_selection_reset (env : ApiEnv) (r : Bool) (t : Tab)
    (cs : List Crate) (rs : List Repository) (sq : String) (sel : Nat)
    (ls : LoadingState) (tp : String) (sc : Nat) (cc : List ComparedCrate)
    (cq : String) :
    let nA := normalApp r t cs rs sq sel ls tp sc cc cq
    (App.handle_key_event env ⟨KeyCode.Tab, false⟩ nA = some nA.next_tab)
    ∧ nA.next_tab.selected_index = 0
    ∧ nA.next_tab.show_detail = false
    ∧ (App.handle_key_event env ⟨KeyCode.BackTab, false⟩ nA = some nA.prev_tab)
    ∧ nA.prev_tab.selected_index = 0
    ∧ nA.prev_tab.show_detail = false
    ∧ (App.handle_key_event env ⟨KeyCode.Char '1', false⟩ nA
        = some { nA with current_tab := Tab.Search })
    ∧ (App.handle_key_event env ⟨KeyCode.Char '2', false⟩ nA
        = some (App.load_recent_crates env { nA with current_tab := Tab.Recent }))
    ∧ (App.handle_key_event env ⟨KeyCode.Char '3', false⟩ nA
        = some (App.load_trending_repos env { nA with current_tab := Tab.Trending }))
    ∧ (App.handle_key_event env ⟨KeyCode.Char '4', false⟩ nA
        = some { nA with current_tab := Tab.Help })
    ∧ (App.handle_key_event env ⟨KeyCode.Char '5', false⟩ nA
        = some { nA with current_tab := Tab.Compare })
    ∧ (App.load_recent_crates env { nA with current_tab := Tab.Recent }).selected_index = sel
    ∧ (App.load_trending_repos env { nA with current_tab := Tab.Trending }).selected_index = sel := by
  intro nA
  refine ⟨rfl, (next_tab_fields nA).1, (next_tab_fields nA).2.1,
    rfl, (prev_tab_fields nA).1, (prev_tab_fields nA).2.1,
    rfl, rfl, rfl, rfl, rfl, ?_, ?_⟩
  · exact load_recent_selected env _
  · exact load_trending_selected env _

/-- Events used by the reachability counterexamples: add the selected crate to
the comparison set, move the selection down, jump to the Compare tab. -/
def evsC1 : List AppEvent :=
  [AppEvent.Key ⟨KeyCode.Char 'a', false⟩, AppEvent.Key ⟨KeyCode.Char 'j', false⟩,
   AppEvent.Key ⟨KeyCode.Char '5', false⟩]

/-- The state reached by evsC1 from the initial state under env0. -/
def stateC1 : App :=
  { running := true, current_tab := Tab.Compare, crates := [crateX, crateY],
    repos := [], search_query := "", selected_index := 1,
    loading_state := LoadingState.Loaded, trend_period := "weekly",
    show_detail := false, input_mode := false, detail_scroll := 0,
    compared_crates := [{ details := crateX,
                          security := { warnings := [], safe := true },
                          selected := false }],
    compare_search_query := "", compare_input_mode := false }

/-- Claim C1, counterexample: after adding one entry to the comparison set,
moving the selection to 1 and jumping to the Compare tab with the numeric
key, the reachable state has a non-empty comparison list of length 1 with
selection index 1: the numeric jump did not reset the selection, and the
bounds invariant fails. -/
theorem numeric_jump_counterexample :
    runEvents env0 evsC1 (App.new env0) = some stateC1
    ∧ stateC1.current_tab = Tab.Compare
    ∧ stateC1.compared_crates.length = 1
    ∧ stateC1.selected_index = 1
    ∧ stateC1.show_detail = false := by
  decide

/-- evsC1 followed by the remove key on the Compare tab. -/
def evsC2 : List AppEvent := evsC1 ++ [AppEvent.Key ⟨KeyCode.Char 'd', false⟩]

/-- Claim C2, counterexample: in the reachable state stateC1 the Compare tab
holds a non-empty comparison set, yet the remove operation panics
(Vec::remove with selection index 1 on a 1-element vector). -/
theorem remove_panic_counterexample :
    runEvents env0 evsC1 (App.new env0) = some stateC1
    ∧ stateC1.current_tab = Tab.Compare
    ∧ stateC1.compared_crates ≠ []
    ∧ App.remove_from_comparison stateC1 = none
    ∧ runEvents env0 evsC2 (App.new env0) = none := by
  decide

/-- Claim C4 (amended): while the detail view is open, escape leaves detail
mode (same tab, still running), but the quit character reaches the global
quit check first and stops the whole App with the detail flag still set;
up/down and j/k move the scroll offset by one, page keys by ten, with Nat
(saturating-at-0) subtraction. -/
theorem detail_mode_keys (env : ApiEnv) (r : Bool) (t : Tab)
    (cs : List Crate) (rs : List Repository) (sq : String) (sel : Nat)
    (ls : LoadingState) (tp : String) (sc : Nat) (cc : List ComparedCrate)
    (cq : String) :
    let dA := detailApp r t cs rs sq sel ls tp sc cc cq
    (App.handle_key_event env ⟨KeyCode.Esc, false⟩ dA
        = some { dA with show_detail := false })
    ∧ (App.handle_key_event env ⟨KeyCode.Char 'q', false⟩ dA
        = some { dA with running := false })
    ∧ (App.handle_key_event env ⟨KeyCode.Down, false⟩ dA
        = some { dA with detail_scroll := sc + 1 })
    ∧ (App.handle_key_event env ⟨KeyCode.Char 'j', false⟩ dA
        = some { dA with detail_scroll := sc + 1 })
    ∧ (App.handle_key_event env ⟨KeyCode.Up, false⟩ dA
        = some { dA with detail_scroll := sc - 1 })
    ∧ (App.handle_key_event env ⟨KeyCode.Char 'k', false⟩ dA
        = some { dA with detail_scroll := sc - 1 })
    ∧ (App.handle_key_event env ⟨KeyCode.PageDown, false⟩ dA
        = some { dA with detail_scroll := sc + 10 })
    ∧ (App.handle_key_event env ⟨KeyCode.PageUp, false⟩ dA
        = some { dA with detail_scroll := sc - 10 }) := by
  intro dA
  exact ⟨rfl, rfl, rfl, rfl, rfl, rfl, rfl, rfl⟩

/-- The state reached from the initial state by opening the detail view. -/
def stateDetail : App :=
  { running := true, current_tab := Tab.Search, crates := [crateX, crateY],
    repos := [], search_query := "", selected_index := 0,
    loading_state := LoadingState.Loaded, trend_period := "weekly",
    show_detail := true, input_mode := false, detail_scroll := 0,
    compared_crates := [], compare_search_query := "",
    compare_input_mode := false }

/-- Claim C4, counterexample: with the detail view open, pressing the quit
character does not return to normal mode with the App running; it stops the
App (running = false) and leaves the detail flag set. -/
theorem detail_quit_counterexample :
    runEvents env0 [AppEvent.Key ⟨KeyCode.Enter, false⟩] (App.new env0)
      = some stateDetail
    ∧ stateDetail.show_detail = true
    ∧ App.handle_key_event env0 ⟨KeyCode.Char 'q', false⟩ stateDetail
        = some { stateDetail with running := false }
    ∧ ({ stateDetail with running := false } : App).show_detail = true
    ∧ ({ stateDetail with running := false } : App).running = false := by
  decide

/-- Claim C5 (amended): the numeric keys for Recent and Trending always
(re)invoke the fetch, regardless of whether the list is empty, replacing the
list wholesale on success; Tab/BackTab cycling never fetches and never
touches the lists, only marking the state Loading when the target tab's list
is empty. -/
theorem tab_fetch_behavior (env : ApiEnv) (r : Bool) (t : Tab)
    (cs : List Crate) (rs : List Repository) (sq : String) (sel : Nat)
    (ls : LoadingState) (tp : String) (sc : Nat) (cc : List ComparedCrate)
    (cq : String) :
    let nA := normalApp r t cs rs sq sel ls tp sc cc cq
    (App.handle_key_event env ⟨KeyCode.Char '2', false⟩ nA
        = some (App.load_recent_crates env { nA with current_tab := Tab.Recent }))
    ∧ (App.handle_key_event env ⟨KeyCode.Char '3', false⟩ nA
        = some (App.load_trending_repos env { nA with current_tab := Tab.Trending }))
    ∧ (∀ b : App, b.next_tab.crates = b.crates ∧ b.next_tab.repos = b.repos
        ∧ b.prev_tab.crates = b.crates ∧ b.prev_tab.repos = b.repos)
    ∧ (∀ b : App, b.next_tab.loading_state =
        if (b.next_tab.current_tab = Tab.Recent ∧ b.crates = [])
            ∨ (b.next_tab.current_tab = Tab.Trending ∧ b.repos = [])
          then LoadingState.Loading else b.loading_state)
    ∧ (∀ b : App, b.prev_tab.loading_state =
        if (b.prev_tab.current_tab = Tab.Recent ∧ b.crates = [])
            ∨ (b.prev_tab.current_tab = Tab.Trending ∧ b.repos = [])
          then LoadingState.Loading else b.loading_state) := by
  intro nA
  refine ⟨rfl, rfl, ?_, next_tab_loading, prev_tab_loading⟩
  intro b
  exact ⟨(next_tab_fields b).2.2.1, (next_tab_fields b).2.2.2,
    (prev_tab_fields b).2.2.1, (prev_tab_fields b).2.2.2⟩

/-- Events: enter search input, type the query, commit it. -/
def evs5pre : List AppEvent :=
  [AppEvent.Key ⟨KeyCode.Char '/', false⟩, AppEvent.Key ⟨KeyCode.Char 'r', false⟩,
   AppEvent.Key ⟨KeyCode.Enter, false⟩]

/-- The state reached by evs5pre from the initial state under env5: one
loaded crate in the list. -/
def state5pre : App :=
  { running := true, current_tab := Tab.Search, crates := [crateX], repos := [],
    search_query := "r", selected_index := 0,
    loading_state := LoadingState.Loaded, trend_period := "weekly",
    show_detail := false, input_mode := false, detail_scroll := 0,
    compared_crates := [], compare_search_query := "",
    compare_input_mode := false }

/-- Claim C5, counterexample: from a reachable state whose crates list is
loaded and non-empty, the numeric key for Recent still triggers the fetch
and the already-loaded list is replaced by the (empty) fetch result — the
fetch is not conditional on the list being empty, and a numeric tab switch
can clear a loaded list. -/
theorem numeric_fetch_counterexample :
    runEvents env5 evs5pre (App.new env5) = some state5pre
    ∧ state5pre.crates ≠ []
    ∧ App.handle_key_event env5 ⟨KeyCode.Char '2', false⟩ state5pre
        = some { state5pre with
            current_tab := Tab.Recent
            crates := []
            loading_state := LoadingState.Loaded }
    ∧ ({ state5pre with
          current_tab := Tab.Recent
          crates := []
          loading_state := LoadingState.Loaded } : App).crates = [] := by
  decide

/-- Claim C10: Ctrl+C stops the App in every interaction mode (the state is
fully arbitrary in the first conjunct), while a plain quit character stops it
only outside the two text-input modes: in normal and detail mode it quits
(with any modifier state), and in either text-input mode the character is
appended to the active buffer instead. -/
theorem quit_keys (env : ApiEnv) (a : App) (r : Bool) (t : Tab)
    (cs : List Crate) (rs : List Repository) (sq : String) (sel : Nat)
    (ls : LoadingState) (tp : String) (sc : Nat) (cc : List ComparedCrate)
    (cq : String) (m : Bool) :
    (App.handle_key_event env ⟨KeyCode.Char 'c', true⟩ a
        = some { a with running := false })
    ∧ (App.handle_key_event env ⟨KeyCode.Char 'q', m⟩
          (normalApp r t cs rs sq sel ls tp sc cc cq)
        = some { normalApp r t cs rs sq sel ls tp sc cc cq with running := false })
    ∧ (App.handle_key_event env ⟨KeyCode.Char 'q', m⟩
          (detailApp r t cs rs sq sel ls tp sc cc cq)
        = some { detailApp r t cs rs sq sel ls tp sc cc cq with running := false })
    ∧ (App.handle_key_event env ⟨KeyCode.Char 'q', false⟩
          (inputApp r t cs rs sq sel ls tp sc cc cq)
        = some { inputApp r t cs rs sq sel ls tp sc cc cq with
            search_query := sq.push 'q' })
    ∧ (App.handle_key_event env ⟨KeyCode.Char 'q', false⟩
          (compareInputApp r t cs rs sq sel ls tp sc cc cq)
        = some { compareInputApp r t cs rs sq sel ls tp sc cc cq with
            compare_search_query := cq.push 'q' }) := by
  exact ⟨rfl, rfl, rfl, rfl, rfl⟩

/-- Claim C2 (amended): on the Compare tab, when the selection index is in
bounds, remove_from_comparison removes exactly the selected entry and does
not panic; the new selection index is the old one clamped to length - 1, and
removing the only entry of a 1-element set leaves the set empty with the
selection left at 0.  (The in-bounds hypothesis is necessary: by the C2
counterexample, a reachable Compare-tab state with a non-empty set and an
out-of-bounds selection makes Vec::remove panic.) -/
theorem remove_at_spec (a : App) (htab : a.current_tab = Tab.Compare)
    (hidx : a.selected_index < a.compared_crates.length) :
    a.remove_from_comparison ≠ none
    ∧ (∀ a', a.remove_from_comparison = some a' →
        a'.compared_crates = a.compared_crates.eraseIdx a.selected_index
        ∧ a'.compared_crates.length + 1 = a.compared_crates.length
        ∧ (a'.compared_crates ≠ [] →
            a'.selected_index = min a.selected_index (a'.compared_crates.length - 1))
        ∧ (a.compared_crates.length = 1 →
            a'.compared_crates = [] ∧ a'.selected_index = 0)) := by
  have hne : a.compared_crates ≠ [] := by
    intro h
    rw [h] at hidx
    simp at hidx
  have hlen : (a.compared_crates.eraseIdx a.selected_index).length + 1
      = a.compared_crates.length := List.length_eraseIdx_add_one hidx
  unfold App.remove_from_comparison
  rw [if_pos ⟨htab, hne⟩, if_pos hidx]
  dsimp only
  constructor
  · split <;> simp
  · intro a' ha'
    split at ha'
    next hgt =>
      injection ha' with h
      subst h
      refine ⟨rfl, hlen, ?_, ?_⟩
      · intro _
        dsimp only
        have h2 := hgt.1
        omega
      · intro h1
        exfalso
        have h0 : (a.compared_crates.eraseIdx a.selected_index).length = 0 := by omega
        exact hgt.2 (List.length_eq_zero.mp h0)
    next hle =>
      injection ha' with h
      subst h
      refine ⟨rfl, hlen, ?_, ?_⟩
      · intro hne2
        have hlt : a.selected_index < (a.compared_crates.eraseIdx a.selected_index).length := by
          by_contra hc
          push_neg at hc
          exact hle ⟨hc, hne2⟩
        dsimp only
        omega
      · intro h1
        have h0 : (a.compared_crates.eraseIdx a.selected_index).length = 0 := by omega
        refine ⟨List.length_eq_zero.mp h0, ?_⟩
        dsimp only
        omega

/-- A Compare-tab state whose comparison set has exactly one entry, with the
selection on it. -/
def compareApp1 : App :=
  { running := true, current_tab := Tab.Compare, crates := [], repos := [],
    search_query := "", selected_index := 0,
    loading_state := LoadingState.Loaded, trend_period := "weekly",
    show_detail := false, input_mode := false, detail_scroll := 0,
    compared_crates := [{ details := crateX,
                          security := { warnings := [], safe := true },
                          selected := false }],
    compare_search_query := "", compare_input_mode := false }

theorem remove_at_spec_witness : App.remove_from_comparison compareApp1 ≠ none :=
  (remove_at_spec compareApp1 rfl (by decide)).1

/-- Claim C9: a Tick leaves the App unchanged whenever LoadingState is not
Loading (NotLoading, Loaded, or any Error message), and when it is Loading it
re-invokes the fetch of the active tab: recent for Recent, trending for
Trending, the search for Search with a non-empty query, and nothing for the
remaining tabs.  In particular an Error state is never retried by a tick. -/
theorem tick_spec (env : ApiEnv) (a : App) :
    (a.loading_state ≠ LoadingState.Loading → a.tick env = a)
    ∧ (a.loading_state = LoadingState.Loading →
        (a.current_tab = Tab.Recent → a.tick env = a.load_recent_crates env)
        ∧ (a.current_tab = Tab.Trending → a.tick env = a.load_trending_repos env)
        ∧ (a.current_tab = Tab.Search → a.search_query.isEmpty = false →
            a.tick env = a.search_crates env)
        ∧ (a.current_tab = Tab.Search → a.search_query = "" → a.tick env = a)
        ∧ (a.current_tab = Tab.Compare ∨ a.current_tab = Tab.Help → a.tick env = a)) := by
  constructor
  · intro h
    unfold App.tick
    split
    next heq => exact absurd heq h
    next => rfl
  · intro hls
    refine ⟨?_, ?_, ?_, ?_, ?_⟩
    · intro ht
      unfold App.tick
      rw [hls, ht]
    · intro ht
      unfold App.tick
      rw [hls, ht]
    · intro ht hq
      unfold App.tick
      rw [hls, ht]
      simp [hq]
    · intro ht hq
      unfold App.tick
      rw [hls, ht, hq]
      rfl
    · intro ht
      unfold App.tick
      rcases ht with ht | ht <;> rw [hls, ht]

/-- A state stuck in an Error loading state. -/
def appErr : App :=
  { running := true, current_tab := Tab.Search, crates := [], repos := [],
    search_query := "", selected_index := 0,
    loading_state := LoadingState.Error "offline", trend_period := "weekly",
    show_detail := false, input_mode := false, detail_scroll := 0,
    compared_crates := [], compare_search_query := "",
    compare_input_mode := false }

theorem tick_spec_witness : App.tick env0 appErr = appErr :=
  (tick_spec env0 appErr).1 (by decide)

/-- The names of the comparison set's entries, in order. -/
def namesOf (l : List ComparedCrate) : List String :=
  l.map (fun c => c.details.name)

theorem namesOf_append (l : List ComparedCrate) (e : ComparedCrate) :
    namesOf (l ++ [e]) = namesOf l ++ [e.details.name] := by
  simp [namesOf]

theorem not_mem_of_any_false (l : List ComparedCrate) (nm : String)
    (h : l.any (fun c => c.details.name == nm) = false) : nm ∉ namesOf l := by
  intro hmem
  simp only [namesOf, List.mem_map] at hmem
  obtain ⟨c, hc, hcn⟩ := hmem
  rw [List.any_eq_false] at h
  exact h c hc (by simp [hcn])

theorem nodup_append_entry (l : List ComparedCrate) (e : ComparedCrate)
    (h1 : (namesOf l).Nodup) (h2 : e.details.name ∉ namesOf l) :
    (namesOf (l ++ [e])).Nodup := by
  rw [namesOf_append]
  simp [List.nodup_append, h1]
  intro hx
  exact h2 hx

/-- Claim C8: assuming the data source returns a record whose name matches
the requested name, every comparison-set operation preserves
name-uniqueness, adding an already-present name is a no-op, and adding the
same name twice is idempotent, leaving exactly one entry for it. -/
theorem comparison_uniqueness (env : ApiEnv)
    (henv : ∀ n c, env.get_crate_details n = Except.ok c → c.name = n)
    (a : App) (hu : (namesOf a.compared_crates).Nodup) :
    (namesOf (a.add_to_comparison env).compared_crates).Nodup
    ∧ (∀ nm, (namesOf (App.add_crate_to_comparison_by_name env nm a).compared_crates).Nodup)
    ∧ (∀ a', a.remove_from_comparison = some a' → (namesOf a'.compared_crates).Nodup)
    ∧ (∀ nm, App.add_crate_to_comparison_by_name env nm
          (App.add_crate_to_comparison_by_name env nm a)
        = App.add_crate_to_comparison_by_name env nm a) := by
  refine ⟨?_, ?_, ?_, ?_⟩
  · unfold App.add_to_comparison
    split
    · split
      next h =>
        dsimp only
        split
        · exact hu
        next hany =>
          have hany' := Bool.eq_false_iff.mpr hany
          split
          next details hd =>
            dsimp only
            apply nodup_append_entry _ _ hu
            have hn : (mkCompared env details).details.name = details.name := rfl
            rw [hn, henv _ _ hd]
            exact not_mem_of_any_false _ _ hany'
          next =>
            dsimp only
            apply nodup_append_entry _ _ hu
            exact not_mem_of_any_false _ _ hany'
      next => exact hu
    · exact hu
  · intro nm
    unfold App.add_crate_to_comparison_by_name
    split
    next details hd =>
      split
      · exact hu
      next hany =>
        have hany' := Bool.eq_false_iff.mpr hany
        dsimp only
        apply nodup_append_entry _ _ hu
        exact not_mem_of_any_false _ _ hany'
    next => exact hu
  · intro a' ha'
    unfold App.remove_from_comparison at ha'
    have hsub : (namesOf (a.compared_crates.eraseIdx a.selected_index)).Nodup := by
      refine List.Nodup.sublist ?_ hu
      exact List.Sublist.map _ (List.eraseIdx_sublist _ _)
    split at ha'
    · split at ha'
      · dsimp only at ha'
        split at ha'
        · injection ha' with h
          subst h
          exact hsub
        · injection ha' with h
          subst h
          exact hsub
      · exact absurd ha' (by simp)
    · injection ha' with h
      subst h
      exact hu
  · intro nm
    cases hd : env.get_crate_details nm with
    | error e =>
      simp only [App.add_crate_to_comparison_by_name, hd]
    | ok c =>
      simp only [App.add_crate_to_comparison_by_name, hd]
      by_cases hany : (a.compared_crates.any fun x => x.details.name == c.name) = true
      · simp [hany]
      · have hany' := Bool.eq_false_iff.mpr hany
        have hall : ((a.compared_crates ++ [mkCompared env c]).any
            fun x => x.details.name == c.name) = true := by
          rw [List.any_append]
          simp [mkCompared]
        simp [hany', hall]

theorem comparison_uniqueness_witness :
    App.add_crate_to_comparison_by_name env0 "serde"
        (App.add_crate_to_comparison_by_name env0 "serde" (App.new env0))
      = App.add_crate_to_comparison_by_name env0 "serde" (App.new env0) :=
  (comparison_uniqueness env0
    (fun n c h => by simp [env0] at h) (App.new env0) (by decide)).2.2.2 "serde"
